import Mathlib

/-!
Verification of the clinic-scraper extraction-and-reconciliation pipeline.

Shallow embedding of the Python sources:
  - `app/services/exclusion_filter.py` (keyword exclusion filter)
  - `app/services/claude_validator.py` (batch validation client: chunking,
    retry, fail-open, judgment merge)
  - `app/services/sheets_writer.py` (deduplicating append sink)
  - `app/services/google_maps.py` (`_names_match` fuzzy name equality)
  - `app/routes/scrape.py` (region orchestrator `generate`)
  - `app/models/clinic.py` (data model, `compute_validity`)

Python strings are modelled as Lean `String` viewed as its list of
characters; Python string primitives used by the code are given explicit
character-list models below so that everything evaluates in the kernel.
-/

namespace ClinicScraper

/-! ### String primitives (models of the Python string operations) -/

/-- Model of Python `s.lower()`: lower-case every character. -/
def pyLower (s : String) : String := ⟨s.data.map Char.toLower⟩

/-- Model of Python `s.replace(c, "")` for a single-character pattern `c`:
removing every occurrence of one character is exactly filtering it out. -/
def stripChar (c : Char) (s : String) : String := ⟨s.data.filter (fun a => a ≠ c)⟩

/-- Model of Python `s.strip()`: drop whitespace from both ends. -/
def pyStrip (s : String) : String :=
  ⟨((s.data.dropWhile Char.isWhitespace).reverse.dropWhile Char.isWhitespace).reverse⟩

/-- Model of Python `needle in haystack`: contiguous-substring containment. -/
def strContains (haystack needle : String) : Bool :=
  decide (List.IsInfix needle.data haystack.data)

/-- Model of Python slicing `s[:n]`: the first `n` characters. -/
def strTake (s : String) (n : Nat) : String := ⟨s.data.take n⟩

/-- Character-count length of a string (Python `len`). -/
def strLen (s : String) : Nat := s.data.length

/-! ### Data model (`app/models/clinic.py`)

`Clinic` keeps the fields the verified components read (`name`, `url`,
`address`, `area`); the remaining optional fields (`phone`, `rating`,
`reviews`) are carried through every operation unchanged and are omitted. -/

structure Clinic where
  name : String
  url : Option String := none
  address : Option String := none
  area : Option String := none
deriving DecidableEq, Repr

/-- One parsed entry of the external reasoning service's JSON response
(`validations` in `ClaudeValidator._validate_batch_internal`).  A `none`
field models the key being absent from the JSON object, so that
`validation.get(key)` / `validation.get(key, default)` can be rendered
faithfully. -/
structure Judgment where
  index : Option Int := none
  is_official_site : Option Bool := none
  is_major_chain : Option Bool := none
  normalized_name : Option String := none
  reason : Option String := none
deriving DecidableEq, Repr

/-- The merged record (`clinic_dict` in the validator /
`ValidatedClinic` in `app/models/clinic.py`). -/
structure ValidatedClinic where
  name : String
  url : Option String := none
  address : Option String := none
  area : Option String := none
  is_official_site : Option Bool := none
  is_major_chain : Bool := false
  normalized_name : Option String := none
  validation_reason : Option String := none
  is_valid : Bool := true
deriving DecidableEq, Repr

/-- Merge one judgment onto the clinic at its index
(`claude_validator.py` lines 198-214).  Note the two different reads of
`is_major_chain`: the stored field uses
`validation.get("is_major_chain", False)` (default `False`) while the
`is_valid` computation uses `validation.get("is_major_chain") is False`
(no default, so an absent key compares as `None is False`, i.e. false). -/
def mergeJudgment (c : Clinic) (v : Judgment) : ValidatedClinic :=
  { name := c.name
    url := c.url
    address := c.address
    area := c.area
    is_official_site := v.is_official_site
    is_major_chain := v.is_major_chain.getD false
    normalized_name := some (v.normalized_name.getD c.name)
    validation_reason := some (v.reason.getD "")
    is_valid := decide (v.is_official_site ≠ some false) && decide (v.is_major_chain = some false) }

/-- `ValidatedClinic.compute_validity` (`app/models/clinic.py` lines 69-73):
`is_valid = (is_official_site is not False) and (is_major_chain is False)`,
where `is_major_chain` is a plain (defaulted) boolean field. -/
def computeValidity (v : ValidatedClinic) : ValidatedClinic :=
  { v with is_valid := decide (v.is_official_site ≠ some false) && decide (v.is_major_chain = false) }

/-! ### Exclusion filter (`app/services/exclusion_filter.py`) -/

namespace ExclusionFilter

/-- `ExclusionFilter.should_exclude`: the lowered name contains some
lowered keyword. -/
def should_exclude (keywords : List String) (name : String) : Bool :=
  keywords.any (fun kw => strContains (pyLower name) (pyLower kw))

/-- `ExclusionFilter.filter`: keep the clinics whose name is not excluded,
in input order. -/
def filter (keywords : List String) : List Clinic → List Clinic
  | [] => []
  | c :: rest =>
    if should_exclude keywords c.name then filter keywords rest
    else c :: filter keywords rest

end ExclusionFilter

/-! ### Batch validation client (`app/services/claude_validator.py`) -/

/-- Model of the Python indexing `clinics[idx]` for a possibly negative
`idx` (negative indexes count from the end; an index out of range on
either side raises `IndexError`, modelled as `none`). -/
def pyGet (l : List Clinic) (i : Int) : Option Clinic :=
  if 0 ≤ i then l.get? i.toNat
  else if (-i).toNat ≤ l.length then l.get? (l.length - (-i).toNat)
  else none

/-- The merge loop of `_validate_batch_internal` (lines 194-214): for each
judgment, read `idx = validation.get("index", 0)`; if `idx < len(clinics)`
merge it onto `clinics[idx]` and append to the results, otherwise skip it.
A Python `IndexError` from `clinics[idx]` (possible for `idx < -len`)
aborts the loop and is modelled as `Except.error`. -/
def mergeJudgments (clinics : List Clinic) : List Judgment → Except Unit (List ValidatedClinic)
  | [] => .ok []
  | v :: rest =>
    let idx := v.index.getD 0
    if idx < (clinics.length : Int) then
      match pyGet clinics idx with
      | some c => (mergeJudgments clinics rest).map (fun rs => mergeJudgment c v :: rs)
      | none => .error ()
    else mergeJudgments clinics rest

/-- Splits a list into consecutive chunks of size `n`
(Python `for i in range(0, len(clinics), batch_size): clinics[i:i+bs]`).
Structured with the list length as fuel so the recursion is total;
for `0 < n` the fuel is never exhausted. -/
def chunksOfAux (n : Nat) : Nat → List Clinic → List (List Clinic)
  | 0, _ => []
  | _, [] => []
  | fuel + 1, l => l.take n :: chunksOfAux n fuel (l.drop n)

/-- `clinics` split into batches of `batch_size`. -/
def chunksOf (n : Nat) (l : List Clinic) : List (List Clinic) :=
  chunksOfAux n l.length l

/-- One attempt of `_validate_batch_internal` can fail with a retryable
error (`json.JSONDecodeError` or `anthropic.APIError`, listed in the
`tenacity` retry predicate) or a non-retryable one (anything else,
e.g. the `IndexError` of the merge loop). -/
inductive SvcErr where
  | retryable (msg : String)
  | fatal (msg : String)
deriving DecidableEq, Repr

/-- The message an exhausted retry surfaces: with `reraise=True` the last
exception itself is raised, so the message is the error's own. -/
def svcErrMsg : SvcErr → String
  | .retryable m => m
  | .fatal m => m

/-- The `tenacity` policy on `_validate_batch_internal`:
`stop_after_attempt(3)`, retry only retryable errors, `reraise=True`
(after the final attempt the last error is raised as-is).
`remaining` is the number of attempts still allowed, `k` the 1-based
attempt counter; the caller starts it with `remaining = 3`, `k = 1`. -/
def retryCall (f : Nat → Except SvcErr (List ValidatedClinic)) :
    Nat → Nat → Except String (List ValidatedClinic)
  | 0, _ => .error "no attempts"
  | remaining + 1, k =>
    match f k with
    | .ok a => .ok a
    | .error (.fatal m) => .error m
    | .error (.retryable m) =>
      if remaining = 0 then .error m else retryCall f remaining (k + 1)

/-- The fail-open record built in `validate_batch`:
`{**clinic.model_dump(), "is_valid": True, "validation_reason": reason}`.
The judgment keys are absent from that dict, matching the structure's
defaults. -/
def failOpen (c : Clinic) (reason : String) : ValidatedClinic :=
  { name := c.name
    url := c.url
    address := c.address
    area := c.area
    is_valid := true
    validation_reason := some reason }

/-- One attempt for one chunk: ask the service (modelled as an oracle
`service : attempt number → chunk → parsed judgments or error`), then run
the merge loop; a merge `IndexError` is a non-retryable exception. -/
def attemptChunk (service : Nat → List Clinic → Except SvcErr (List Judgment))
    (chunk : List Clinic) (k : Nat) : Except SvcErr (List ValidatedClinic) :=
  match service k chunk with
  | .error e => .error e
  | .ok js =>
    match mergeJudgments chunk js with
    | .ok rs => .ok rs
    | .error _ => .error (.fatal "IndexError")

/-- `ClaudeValidator.validate_batch` (lines 82-135).  `hasClient` models
`self.client is not None`.  Without a client every record fails open with
reason `"API未設定"`.  Otherwise the input is chunked; each chunk is
validated with the retry policy, and on final failure every record of that
chunk fails open with reason `"API error: ..."`. -/
def validate_batch (hasClient : Bool)
    (service : Nat → List Clinic → Except SvcErr (List Judgment))
    (batch_size : Nat) (clinics : List Clinic) : List ValidatedClinic :=
  if hasClient = false then
    clinics.map (fun c => failOpen c "API未設定")
  else
    (chunksOf batch_size clinics).flatMap (fun chunk =>
      match retryCall (attemptChunk service chunk) 3 1 with
      | .ok rs => rs
      | .error e => chunk.map (fun c => failOpen c ("API error: " ++ e)))

/-! ### Deduplicating append sink (`app/services/sheets_writer.py`) -/

/-- One sheet row as returned by `sheet.get_all_values()`: a list of cell
strings (cells beyond the row's length read as `""`). -/
abbrev Row := List String

/-- `row[j].strip()` with Python's out-of-range-cell-is-empty convention
(`len(row) > j and row[j].strip()` in the source reads cell `j` only when
present; an absent cell behaves like `""`). -/
def cellTrim (row : Row) (j : Nat) : String := pyStrip ((row.get? j).getD "")

/-- Accumulator of the scan over existing rows (`SheetsWriter.append`
lines 107-130): the dedup URL set (modelled as the list of URLs added, in
order; only membership is ever queried), the 1-based row number of the
last recognized data row (header row `1` when none), and the count of
recognized data rows. -/
structure ScanResult where
  existing_urls : List String
  last_data_row : Nat
  data_count : Nat
deriving DecidableEq, Repr

/-- One iteration of the scan loop at 1-based sheet row `i`:
a row with non-empty name and URL cells is a data row and contributes its
URL to the dedup set; a row with non-empty name and `No.` cells (but no
URL) is a data row contributing no URL; anything else is skipped. -/
def scanStep (acc : ScanResult) (i : Nat) (row : Row) : ScanResult :=
  let has_no := cellTrim row 0 ≠ ""
  let has_name := cellTrim row 1 ≠ ""
  let has_url := cellTrim row 2 ≠ ""
  if has_name ∧ has_url then
    { existing_urls := acc.existing_urls ++ [cellTrim row 2]
      last_data_row := i
      data_count := acc.data_count + 1 }
  else if has_name ∧ has_no then
    { acc with last_data_row := i, data_count := acc.data_count + 1 }
  else acc

/-- A row recognized as a valid data row by the scan: non-empty name and
URL cells, or non-empty name and `No.` cells. -/
def isValidRow (r : Row) : Bool :=
  (decide (cellTrim r 1 ≠ "") && decide (cellTrim r 2 ≠ "")) ||
    (decide (cellTrim r 1 ≠ "") && decide (cellTrim r 0 ≠ ""))

/-- The scan loop over a list of rows starting at sheet row `i`. -/
def scanAux : List Row → Nat → ScanResult → ScanResult
  | [], _, acc => acc
  | r :: rest, i, acc => scanAux rest (i + 1) (scanStep acc i r)

/-- Scan of the whole sheet: skip the header (row 1) and fold the loop
from row 2 with the initial accumulator `([], 1, 0)`. -/
def scanSheet (allValues : List Row) : ScanResult :=
  scanAux (allValues.drop 1) 2 { existing_urls := [], last_data_row := 1, data_count := 0 }

/-- The 14-column output row staged for one new clinic
(`append` lines 155-170): sequence number, name, URL, blanks for the
tracking columns, area, and the initial status `"未送信"`. -/
def mkRow (no : Nat) (c : ValidatedClinic) : Row :=
  [toString no, c.name, c.url.getD "", "", "", c.area.getD "", "未送信",
    "", "", "", "", "", "", ""]

/-- The dedup key of an incoming record: `clinic.get("url", "")` read as
a string (`""` when absent). -/
def urlOf (c : ValidatedClinic) : String := c.url.getD ""

/-- The staging loop of `append` (lines 136-176): in input order, skip a
clinic whose URL is already in the dedup set, skip a clinic with no URL,
otherwise stage a row with the next sequence number and add the URL to the
in-memory dedup set. -/
def stageAux : List ValidatedClinic → List String → Nat → List Row
  | [], _, _ => []
  | c :: rest, existing, no =>
    let url := c.url.getD ""
    if url ≠ "" ∧ url ∈ existing then stageAux rest existing no
    else if url = "" then stageAux rest existing no
    else mkRow no c :: stageAux rest (existing ++ [url]) (no + 1)

/-- `sheet.update(f"A{start_row}", new_rows)`: overwrite the block of rows
`start_row .. start_row + len - 1` (1-based), extending the sheet as
needed. -/
def listUpdate (allValues : List Row) (start_row : Nat) (rows : List Row) : List Row :=
  allValues.take (start_row - 1) ++ rows ++ allValues.drop (start_row - 1 + rows.length)

/-- Result of one `append` call: the new sheet contents, the returned
count of newly written rows, and the 1-based row where a non-empty block
is written (`last_data_row + 1`). -/
structure AppendOut where
  sheet : List Row
  written : Nat
  start_row : Nat
deriving DecidableEq, Repr

/-- `SheetsWriter.append` (lines 104-185) on an already-existing sheet:
scan the current rows, stage the non-duplicate incoming clinics with
sequence numbers continuing from `data_count + 1`, and write the staged
block immediately after the last recognized data row. -/
def appendSheet (allValues : List Row) (clinics : List ValidatedClinic) : AppendOut :=
  let scan := scanSheet allValues
  let newRows := stageAux clinics scan.existing_urls (scan.data_count + 1)
  let start := scan.last_data_row + 1
  { sheet := if newRows.isEmpty then allValues else listUpdate allValues start newRows
    written := newRows.length
    start_row := start }

/-! ### Fuzzy panel-title match (`GoogleMapsScraper._names_match`) -/

/-- The normalization of `_names_match`: strip half-width and full-width
spaces, then case-fold
(`name.replace(" ", "").replace("　", "").lower()`). -/
def normalizeName (s : String) : String :=
  pyLower (stripChar '　' (stripChar ' ' s))

/-- `GoogleMapsScraper._names_match` (`google_maps.py` lines 646-677):
false on an empty input; otherwise exact match, or normalized match, or
substring containment either way, or equal prefixes of length
`min_len = min(len(a), len(b))` provided `min_len >= 5`. -/
def names_match (h1_name aria_label_name : String) : Bool :=
  if h1_name.data.isEmpty ∨ aria_label_name.data.isEmpty then false
  else if h1_name = aria_label_name then true
  else if normalizeName h1_name = normalizeName aria_label_name then true
  else if strContains (normalizeName aria_label_name) (normalizeName h1_name) ∨
      strContains (normalizeName h1_name) (normalizeName aria_label_name) then true
  else if 5 ≤ min (strLen (normalizeName h1_name)) (strLen (normalizeName aria_label_name)) ∧
      strTake (normalizeName h1_name)
          (min (strLen (normalizeName h1_name)) (strLen (normalizeName aria_label_name))) =
        strTake (normalizeName aria_label_name)
          (min (strLen (normalizeName h1_name)) (strLen (normalizeName aria_label_name))) then true
  else false

/-- Modelled from the spec (§4.3 step 3): the fuzzy equality as the spec
words it — exact match, or match after stripping whitespace variants and
case-folding, or one normalized string contains the other, or the two
strings share an identical prefix of at least 5 characters. -/
def specNamesMatch (h1_name aria_label_name : String) : Bool :=
  let h1n := normalizeName h1_name
  let arian := normalizeName aria_label_name
  decide (h1_name = aria_label_name) || decide (h1n = arian) ||
    strContains arian h1n || strContains h1n arian ||
    (decide (5 ≤ min (strLen h1n) (strLen arian)) && decide (strTake h1n 5 = strTake arian 5))

/-! ### Region orchestrator (`app/routes/scrape.py`, `scrape.generate`) -/

/-- The progress events the orchestrator yields (SSE messages): log lines,
the final `complete` event carrying the collected records and the four
totals `(total_found, valid_count, excluded_count, new_count)`, and the
fatal `error` event. -/
inductive Event where
  | log (msg : String)
  | complete (clinics : List ValidatedClinic) (total_found valid_count excluded_count new_count : Nat)
  | error (msg : String)
deriving DecidableEq, Repr

/-- The orchestrator's running totals (`all_valid_clinics`, `total_found`,
`total_excluded`, `total_new`). -/
structure RunState where
  all_valid : List ValidatedClinic
  total_found : Nat
  total_excluded : Nat
  total_new : Nat
deriving DecidableEq, Repr

/-- What the external collaborators do for one region: the outcome of
`scraper.search(query)` (an error models `ScrapingError` or any other
exception, both of which the orchestrator absorbs with a warning), and the
outcome of `sheets_writer.append` on the region's valid clinics. -/
structure RegionWorld where
  searchResult : Except String (List Clinic)
  sinkAppend : List ValidatedClinic → Except String Nat

/-- One iteration of the per-region loop of `scrape.generate`
(lines 103-234), with the keepalive/timing yields omitted: on a search
error warn and continue; skip empty results; accumulate `total_found`,
filter and accumulate `total_excluded`; validate and keep the records
with `is_valid`; append them to the sink — on success add the returned
count to `total_new` and extend `all_valid_clinics`, on a sink error warn
and continue (the valid clinics are NOT added to `all_valid_clinics`). -/
def processRegion (keywords : List String)
    (validate : List Clinic → List ValidatedClinic)
    (w : RegionWorld) (st : RunState) : RunState × List Event :=
  match w.searchResult with
  | .error e => (st, [Event.log ("[WARN] 検索エラー: " ++ e)])
  | .ok clinics =>
    if clinics.isEmpty then (st, [Event.log "→ スキップ（0件）"])
    else
      let st1 := { st with total_found := st.total_found + clinics.length }
      let filtered := ExclusionFilter.filter keywords clinics
      let st2 := { st1 with
        total_excluded := st1.total_excluded + (clinics.length - filtered.length) }
      if filtered.isEmpty then (st2, [Event.log "→ スキップ（フィルタ後0件）"])
      else
        let valid_clinics := (validate filtered).filter (fun c => c.is_valid)
        if valid_clinics.isEmpty then (st2, [Event.log "→ スキップ（有効0件）"])
        else
          match w.sinkAppend valid_clinics with
          | .ok n =>
            ({ st2 with
                total_new := st2.total_new + n
                all_valid := st2.all_valid ++ valid_clinics },
              [Event.log "→ Sheets保存"])
          | .error e => (st2, [Event.log ("[WARN] Sheets書き込みエラー: " ++ e)])

/-- The whole region loop followed by the final `complete` event, whose
`valid_count` is `len(all_valid_clinics)`. -/
def runRegions (keywords : List String)
    (validate : List Clinic → List ValidatedClinic) :
    List RegionWorld → RunState → RunState × List Event
  | [], st =>
    (st, [Event.complete st.all_valid st.total_found st.all_valid.length
      st.total_excluded st.total_new])
  | w :: rest, st =>
    let p := processRegion keywords validate w st
    let q := runRegions keywords validate rest p.1
    (q.1, p.2 ++ q.2)

/-- A full run of `scrape.generate` starting from zeroed totals. -/
def runScrape (keywords : List String)
    (validate : List Clinic → List ValidatedClinic)
    (worlds : List RegionWorld) : RunState × List Event :=
  runRegions keywords validate worlds { all_valid := [], total_found := 0, total_excluded := 0, total_new := 0 }

/-! ## Helper lemmas -/

/-- The exclusion loop is `List.filter` with the negated predicate. -/
theorem exclusion_filter_eq (keywords : List String) (R : List Clinic) :
    ExclusionFilter.filter keywords R =
      R.filter (fun c => !ExclusionFilter.should_exclude keywords c.name) := by
  induction R with
  | nil => rfl
  | cons c rest ih =>
    by_cases h : ExclusionFilter.should_exclude keywords c.name
    · simp [ExclusionFilter.filter, List.filter_cons, h, ih]
    · simp [ExclusionFilter.filter, List.filter_cons, h, ih]

/-! ## Claim C9 -/

/-- C9: for all keyword lists `K` and record lists `R`,
`ExclusionFilter.filter K R` is a subsequence of `R` (subset preserving
relative order), and a record is kept exactly when its lower-cased name
contains no lower-cased keyword of `K` — i.e. excluded iff the name
case-insensitively contains at least one keyword. -/
theorem c9_exclusion_filter_subsequence_and_exclusion_iff
    (K : List String) (R : List Clinic) :
    List.Sublist (ExclusionFilter.filter K R) R ∧
    (∀ c, c ∈ ExclusionFilter.filter K R ↔
      c ∈ R ∧ ¬ ∃ kw, kw ∈ K ∧ strContains (pyLower c.name) (pyLower kw) = true) := by
  constructor
  · rw [exclusion_filter_eq]
    exact List.filter_sublist R
  · intro c
    rw [exclusion_filter_eq, List.mem_filter]
    simp only [ExclusionFilter.should_exclude, Bool.not_eq_true', List.any_eq_false,
      Bool.not_eq_true, and_congr_right_iff]
    intro _
    constructor
    · rintro h ⟨kw, hkw, hc⟩
      exact absurd hc (by simp [h kw hkw])
    · intro h kw hkw
      by_contra hne
      exact h ⟨kw, hkw, by revert hne; cases strContains (pyLower c.name) (pyLower kw) <;> simp⟩

/-- Witness for C9: one excluded and one kept record against the keyword
list `["major"]`. -/
theorem c9_witness :
    List.Sublist
      (ExclusionFilter.filter ["major"] [{ name := "Major Clinic" }, { name := "Tiny" }])
      [{ name := "Major Clinic" }, { name := "Tiny" }] ∧
    ({ name := "Tiny" } : Clinic) ∈
      ExclusionFilter.filter ["major"] [{ name := "Major Clinic" }, { name := "Tiny" }] := by
  have h := c9_exclusion_filter_subsequence_and_exclusion_iff ["major"]
    [{ name := "Major Clinic" }, { name := "Tiny" }]
  exact ⟨h.1, (h.2 { name := "Tiny" }).mpr ⟨by decide, by decide⟩⟩

/-! ## Claim C2 -/

/-- C2 (code bug): a judgment that omits `is_major_chain` is merged with
the stored field defaulting to `false` and `is_official_site = true`, yet
the inline validity computation
(`validation.get("is_major_chain") is False`, which lacks the default)
marks the record invalid — although re-deriving validity from the merged
record with `ValidatedClinic.compute_validity` yields valid, as the spec
states. -/
theorem c2_omitted_major_chain_validity_bug :
    (mergeJudgment { name := "A" } { index := some 0, is_official_site := some true }).is_major_chain = false ∧
    (mergeJudgment { name := "A" } { index := some 0, is_official_site := some true }).is_official_site = some true ∧
    (mergeJudgment { name := "A" } { index := some 0, is_official_site := some true }).is_valid = false ∧
    (computeValidity (mergeJudgment { name := "A" } { index := some 0, is_official_site := some true })).is_valid = true := by
  decide

/-! ## Claim C3 -/

/-- A response that omits an index yields fewer entries than input
records: two records and a single judgment `{index: 1}` merge to one
output entry, not two. -/
theorem c3_counterexample_omitted_index :
    (mergeJudgments [{ name := "A" }, { name := "B" }] [{ index := some 1 }]).map List.length =
      Except.ok 1 ∧
    ([{ name := "A" }, { name := "B" }] : List Clinic).length = 2 := by
  exact ⟨rfl, rfl⟩

/-- Generalized merge lemma: if the judgments cover exactly the positions
`cs1.length, cs1.length + 1, ...` in order, the merge pairs them with the
records of `cs2` positionally. -/
theorem mergeJudgments_exact_cover (cs1 : List Clinic) :
    ∀ (js : List Judgment) (cs2 : List Clinic), js.length = cs2.length →
    (∀ i (h : i < js.length), (js.get ⟨i, h⟩).index = some ((cs1.length : Int) + i)) →
    mergeJudgments (cs1 ++ cs2) js = .ok (List.zipWith mergeJudgment cs2 js)
  | [], [], _, _ => rfl
  | [], _ :: _, hlen, _ => by simp at hlen
  | _ :: _, [], hlen, _ => by simp at hlen
  | j :: jr, c :: cr, hlen, hidx => by
    have hj : j.index = some (cs1.length : Int) := by
      have := hidx 0 (by simp)
      simpa using this
    have hlt : (cs1.length : Int) < ((cs1 ++ c :: cr).length : Int) := by
      simp [List.length_append]
    have hget : pyGet (cs1 ++ c :: cr) (cs1.length : Int) = some c := by
      simp only [pyGet, if_pos (Int.ofNat_nonneg _), Int.toNat_ofNat]
      rw [List.get?_append_right (Nat.le_refl _)]
      simp
    have hrec : mergeJudgments (cs1 ++ c :: cr) jr = .ok (List.zipWith mergeJudgment cr jr) := by
      have hassoc : cs1 ++ c :: cr = (cs1 ++ [c]) ++ cr := by simp
      rw [hassoc]
      apply mergeJudgments_exact_cover (cs1 ++ [c]) jr cr
      · simpa using hlen
      · intro i hi
        have := hidx (i + 1) (by simpa using Nat.succ_lt_succ hi)
        simp only [List.get_cons_succ] at this ⊢
        rw [this]
        simp [List.length_append]
        omega
    simp only [mergeJudgments, hj, Option.getD_some, if_pos hlt, hget, hrec,
      List.zipWith_cons_cons, Except.map]

/-- C3 (amended): for every well-formed response, the merge returns one
output entry per judgment whose index resolves in bounds, in response
order; in particular, when the response lists exactly the indexes
`0 .. n-1` in increasing order (one judgment per record), the output has
exactly one entry per input record, in input-position order, each
judgment merged onto the record at its index.  (The claim's further cases
fail: an omitted index drops the record, a repeated index duplicates it,
and out-of-order judgments come back in response order — see the
counterexample.) -/
theorem c3_positional_merge_on_full_cover (cs : List Clinic) (js : List Judgment)
    (hlen : js.length = cs.length)
    (hidx : ∀ i (h : i < js.length), (js.get ⟨i, h⟩).index = some (i : Int)) :
    mergeJudgments cs js = .ok (List.zipWith mergeJudgment cs js) ∧
    (List.zipWith mergeJudgment cs js).length = cs.length := by
  constructor
  · have := mergeJudgments_exact_cover [] js cs hlen (by simpa using hidx)
    simpa using this
  · rw [List.length_zipWith, hlen, Nat.min_self]

/-- Witness for C3: two records with the identity cover `[0, 1]`. -/
theorem c3_witness :
    mergeJudgments [{ name := "A" }, { name := "B" }] [{ index := some 0 }, { index := some 1 }] =
      .ok (List.zipWith mergeJudgment [{ name := "A" }, { name := "B" }]
            [{ index := some 0 }, { index := some 1 }]) :=
  (c3_positional_merge_on_full_cover [{ name := "A" }, { name := "B" }]
    [{ index := some 0 }, { index := some 1 }] rfl
    (fun i h => by
      match i, h with
      | 0, _ => rfl
      | 1, _ => rfl)).1

/-! ## Claim C7 -/

/-- A judgment with index `-1` on a one-record chunk is not ignored: it
merges onto the last record (Python negative indexing), so it contributes
an output entry. -/
theorem c7_counterexample_negative_index :
    mergeJudgments [{ name := "A" }] [{ index := some (-1) }] =
      .ok [mergeJudgment { name := "A" } { index := some (-1) }] ∧
    (mergeJudgments [{ name := "A" }] [{ index := some (-1) }]).map List.length = .ok 1 := by
  exact ⟨rfl, rfl⟩

/-- C7 (amended): only judgments whose resolved index is at least the
chunk length are ignored by the merge (they contribute no entry and do
not change the result); a negative index is not ignored — it resolves
Python-style from the end of the chunk, as the counterexample shows. -/
theorem c7_only_large_indexes_ignored (cs : List Clinic) (js : List Judgment) :
    mergeJudgments cs js =
      mergeJudgments cs (js.filter (fun j => decide ((j.index.getD 0) < (cs.length : Int)))) := by
  induction js with
  | nil => rfl
  | cons j jr ih =>
    by_cases h : (j.index.getD 0) < (cs.length : Int)
    · rw [List.filter_cons_of_pos (by simpa using h)]
      simp only [mergeJudgments, if_pos h, ih]
    · rw [List.filter_cons_of_neg (by simpa using h)]
      simp only [mergeJudgments, if_neg h, ih]

/-! ## Claim C4 -/

/-- Flat-mapping a per-record function over the chunks of a list is just
mapping it over the list, provided the chunk size is positive. -/
theorem chunksOfAux_flatMap_map (f : Clinic → ValidatedClinic) (n : Nat) (hn : 0 < n) :
    ∀ (fuel : Nat) (l : List Clinic), l.length ≤ fuel →
    (chunksOfAux n fuel l).flatMap (fun chunk => chunk.map f) = l.map f
  | 0, l, hl => by
    have : l = [] := List.eq_nil_of_length_eq_zero (Nat.le_zero.mp hl)
    subst this
    rfl
  | fuel + 1, [], _ => rfl
  | fuel + 1, x :: xs, hl => by
    have hrec := chunksOfAux_flatMap_map f n hn fuel ((x :: xs).drop n)
        (by
          simp only [List.length_drop, List.length_cons]
          simp only [List.length_cons] at hl
          omega)
    simp only [chunksOfAux, List.flatMap_cons, hrec]
    rw [← List.map_append, List.take_append_drop]

/-- The retry loop surfaces the service error when every attempt fails. -/
theorem retryCall_all_fail (f : Nat → Except SvcErr (List ValidatedClinic))
    (e : SvcErr) (hf : ∀ k, f k = .error e) :
    retryCall f 3 1 = .error (svcErrMsg e) := by
  cases e with
  | retryable m => simp [retryCall, hf 1, hf 2, hf 3, svcErrMsg]
  | fatal m => simp [retryCall, hf 1, svcErrMsg]

/-- C4: with no API client configured, `validate_batch` returns one
fail-open entry per input record with reason `"API未設定"`; and when the
reasoning service errors on every attempt, it returns one fail-open entry
per input record with reason `"API error: ..."`.  In both cases every
entry is marked `is_valid = true` and nothing is raised (the function is
total). -/
theorem c4_fail_open_per_record
    (service : Nat → List Clinic → Except SvcErr (List Judgment))
    (batch_size : Nat) (clinics : List Clinic) (e : SvcErr) :
    (validate_batch false service batch_size clinics =
      clinics.map (fun c => failOpen c "API未設定")) ∧
    (0 < batch_size → (∀ k chunk, service k chunk = .error e) →
      validate_batch true service batch_size clinics =
        clinics.map (fun c => failOpen c ("API error: " ++ svcErrMsg e)) ∧
      (validate_batch true service batch_size clinics).length = clinics.length ∧
      ∀ r ∈ validate_batch true service batch_size clinics, r.is_valid = true) := by
  constructor
  · rfl
  · intro hn hsvc
    have hchunk : ∀ chunk, retryCall (attemptChunk service chunk) 3 1 =
        .error (svcErrMsg e) := by
      intro chunk
      apply retryCall_all_fail
      intro k
      simp [attemptChunk, hsvc k chunk]
    have hmain : validate_batch true service batch_size clinics =
        clinics.map (fun c => failOpen c ("API error: " ++ svcErrMsg e)) := by
      simp only [validate_batch, if_neg (by decide : ¬ (true = false))]
      have : ∀ chunk : List Clinic,
          (match retryCall (attemptChunk service chunk) 3 1 with
            | .ok rs => rs
            | .error err => chunk.map (fun c => failOpen c ("API error: " ++ err))) =
          chunk.map (fun c => failOpen c ("API error: " ++ svcErrMsg e)) := by
        intro chunk
        rw [hchunk chunk]
      simp only [this]
      exact chunksOfAux_flatMap_map _ batch_size hn clinics.length clinics (Nat.le_refl _)
    refine ⟨hmain, ?_, ?_⟩
    · rw [hmain, List.length_map]
    · intro r hr
      rw [hmain] at hr
      obtain ⟨c, _, hc⟩ := List.mem_map.mp hr
      rw [← hc]
      rfl

/-- Witness for C4: a concrete two-record input, chunk size 1, a service
that errors on every call. -/
theorem c4_witness :
    validate_batch false (fun _ _ => .error (.retryable "boom")) 1 [{ name := "A" }, { name := "B" }] =
      [failOpen { name := "A" } "API未設定", failOpen { name := "B" } "API未設定"] ∧
    validate_batch true (fun _ _ => .error (.retryable "boom")) 1 [{ name := "A" }, { name := "B" }] =
      [failOpen { name := "A" } "API error: boom", failOpen { name := "B" } "API error: boom"] := by
  have h := c4_fail_open_per_record (fun _ _ => .error (.retryable "boom")) 1
    [{ name := "A" }, { name := "B" }] (.retryable "boom")
  exact ⟨h.1, (h.2 (by decide) (fun _ _ => rfl)).1⟩

/-! ## Scan-loop lemmas for the sink -/

/-- A row not recognized as data leaves the scan accumulator unchanged. -/
theorem scanStep_invalid (acc : ScanResult) (i : Nat) (r : Row)
    (h : isValidRow r = false) : scanStep acc i r = acc := by
  simp only [isValidRow, Bool.or_eq_false_iff, Bool.and_eq_false_iff,
    decide_eq_false_iff_not, not_not] at h
  obtain ⟨h1, h2⟩ := h
  simp only [scanStep]
  rcases h1 with h1 | h1 <;> rcases h2 with h2 | h2 <;>
    simp [h1, h2]

/-- A recognized data row sets `last_data_row` to its own row number and
bumps the count. -/
theorem scanStep_valid (acc : ScanResult) (i : Nat) (r : Row)
    (h : isValidRow r = true) :
    (scanStep acc i r).last_data_row = i ∧
    (scanStep acc i r).data_count = acc.data_count + 1 := by
  simp only [isValidRow, Bool.or_eq_true, Bool.and_eq_true, decide_eq_true_eq] at h
  simp only [scanStep]
  rcases h with ⟨h1, h2⟩ | ⟨h1, h2⟩
  · simp [h1, h2]
  · by_cases hurl : cellTrim r 2 ≠ "" <;> simp [h1, h2, hurl]

/-- The URL a scan step adds: exactly the trimmed URL cell of a row with
non-empty name and URL cells. -/
theorem scanStep_urls (acc : ScanResult) (i : Nat) (r : Row) :
    (scanStep acc i r).existing_urls =
      acc.existing_urls ++
        (if cellTrim r 1 ≠ "" ∧ cellTrim r 2 ≠ "" then [cellTrim r 2] else []) := by
  simp only [scanStep]
  split_ifs with h h' <;> simp_all

/-- The scan distributes over list append. -/
theorem scanAux_append (as bs : List Row) :
    ∀ (i : Nat) (acc : ScanResult),
    scanAux (as ++ bs) i acc = scanAux bs (i + as.length) (scanAux as i acc) := by
  induction as with
  | nil => intro i acc; simp [scanAux]
  | cons r rest ih =>
    intro i acc
    show scanAux (rest ++ bs) (i + 1) (scanStep acc i r) =
      scanAux bs (i + (rest.length + 1)) (scanAux rest (i + 1) (scanStep acc i r))
    rw [ih (i + 1) (scanStep acc i r)]
    have harith : i + 1 + rest.length = i + (rest.length + 1) := by omega
    rw [harith]

/-- Scanning only unrecognized rows changes nothing. -/
theorem scanAux_invalid (rows : List Row) :
    ∀ (i : Nat) (acc : ScanResult), (∀ r ∈ rows, isValidRow r = false) →
    scanAux rows i acc = acc := by
  induction rows with
  | nil => intro i acc _; rfl
  | cons r rest ih =>
    intro i acc h
    simp only [scanAux]
    rw [scanStep_invalid acc i r (h r (by simp))]
    exact ih (i + 1) acc (fun r hr => h r (by simp [hr]))

/-- Scanning only recognized rows adds their number to the count and, when
they exist, leaves `last_data_row` at the physical row of the last one. -/
theorem scanAux_valid (rows : List Row) :
    ∀ (i : Nat) (acc : ScanResult), (∀ r ∈ rows, isValidRow r = true) →
    (scanAux rows i acc).data_count = acc.data_count + rows.length ∧
    (rows ≠ [] → (scanAux rows i acc).last_data_row = i + rows.length - 1) := by
  induction rows with
  | nil => intro i acc _; simp [scanAux]
  | cons r rest ih =>
    intro i acc h
    have hstep := scanStep_valid acc i r (h r (by simp))
    have hrec := ih (i + 1) (scanStep acc i r) (fun r hr => h r (by simp [hr]))
    constructor
    · simp only [scanAux, List.length_cons, hrec.1, hstep.2]
      omega
    · intro _
      cases rest with
      | nil =>
        simp only [scanAux, List.length_cons, List.length_nil]
        simpa using hstep.1
      | cons r2 rest2 =>
        simp only [scanAux] at hrec ⊢
        rw [hrec.2 (by simp)]
        simp only [List.length_cons]
        omega

/-- The URLs collected by a scan: the trimmed URL cells of the rows with
both a non-empty name and a non-empty URL, in order. -/
theorem scanAux_urls (rows : List Row) :
    ∀ (i : Nat) (acc : ScanResult),
    (scanAux rows i acc).existing_urls =
      acc.existing_urls ++
        (rows.filter (fun r => decide (cellTrim r 1 ≠ "") && decide (cellTrim r 2 ≠ ""))).map
          (fun r => cellTrim r 2) := by
  induction rows with
  | nil => intro i acc; simp [scanAux]
  | cons r rest ih =>
    intro i acc
    simp only [scanAux, ih, scanStep_urls]
    by_cases h : cellTrim r 1 ≠ "" ∧ cellTrim r 2 ≠ ""
    · rw [List.filter_cons_of_pos (by simp [h.1, h.2])]
      simp [h, List.append_assoc]
    · rw [List.filter_cons_of_neg (by simpa using h)]
      simp [h]

/-! ## Claim C10 -/

/-- C10: the dedup URL set built by `append`'s scan contains exactly the
(trimmed) URLs of rows having both a non-empty name and a non-empty URL
cell; consequently a sheet whose only URL sits in a row with an empty
name cell does not protect that URL, and an incoming record carrying it
is appended again (written count 1) instead of being skipped as a
duplicate. -/
theorem c10_dedup_set_requires_name_and_url (hdr : Row) (rows : List Row) :
    (scanSheet (hdr :: rows)).existing_urls =
      (rows.filter (fun r => decide (cellTrim r 1 ≠ "") && decide (cellTrim r 2 ≠ ""))).map
        (fun r => cellTrim r 2) ∧
    (∀ (u : String) (c : ValidatedClinic), u ≠ "" → c.url = some u →
      (appendSheet [hdr, ["1", "", u]] [c]).written = 1) := by
  constructor
  · simp only [scanSheet, List.drop_succ_cons, List.drop_zero]
    rw [scanAux_urls]
    simp
  · intro u c hu hc
    have hrow : isValidRow ["1", "", u] = false := by
      simp [isValidRow, cellTrim, pyStrip]
    have hscan : scanSheet [hdr, ["1", "", u]] =
        { existing_urls := [], last_data_row := 1, data_count := 0 } := by
      simp only [scanSheet, List.drop_succ_cons, List.drop_zero]
      exact scanAux_invalid _ 2 _ (by simpa using hrow)
    simp only [appendSheet, hscan, stageAux, hc, Option.getD_some]
    rw [if_neg (by simp), if_neg hu]
    rfl

/-- Witness for C10: the concrete URL `"https://a"` and a record carrying
it. -/
theorem c10_witness :
    (appendSheet [["No."], ["1", "", "https://a"]]
      [{ name := "A", url := some "https://a" }]).written = 1 :=
  (c10_dedup_set_requires_name_and_url ["No."] [["1", "", "https://a"]]).2
    "https://a" { name := "A", url := some "https://a" } (by decide) rfl

/-! ## Claim C6 -/

/-- C6: for a sheet with a malformed row `b` between valid data rows
(`xs` before, `ys` after, then any malformed tail `zs`), the scan counts
exactly the valid rows, `last_data_row` is the physical row of the last
valid row, and `append` stages its block immediately after that row —
strictly after the blank row's position and, when a malformed tail
exists, strictly before the sheet's physical end. -/
theorem c6_blank_row_not_insertion_point (hdr b : Row) (xs ys zs : List Row)
    (clinics : List ValidatedClinic)
    (hxs : ∀ r ∈ xs, isValidRow r = true)
    (hys : ∀ r ∈ ys, isValidRow r = true)
    (hb : isValidRow b = false)
    (hzs : ∀ r ∈ zs, isValidRow r = false)
    (hys0 : ys ≠ []) :
    (scanSheet (hdr :: (xs ++ b :: (ys ++ zs)))).data_count = xs.length + ys.length ∧
    (scanSheet (hdr :: (xs ++ b :: (ys ++ zs)))).last_data_row = 2 + xs.length + ys.length ∧
    (appendSheet (hdr :: (xs ++ b :: (ys ++ zs))) clinics).start_row =
      2 + xs.length + ys.length + 1 ∧
    (2 + xs.length) + 1 < (appendSheet (hdr :: (xs ++ b :: (ys ++ zs))) clinics).start_row ∧
    (zs ≠ [] → (appendSheet (hdr :: (xs ++ b :: (ys ++ zs))) clinics).start_row <
      (hdr :: (xs ++ b :: (ys ++ zs))).length + 1) := by
  have hscan : scanSheet (hdr :: (xs ++ b :: (ys ++ zs))) =
      scanAux ys (2 + xs.length + 1)
        (scanAux xs 2 { existing_urls := [], last_data_row := 1, data_count := 0 }) := by
    show scanAux (xs ++ b :: (ys ++ zs)) 2 _ = _
    rw [scanAux_append]
    show scanAux (ys ++ zs) (2 + xs.length + 1) (scanStep _ (2 + xs.length) b) = _
    rw [scanStep_invalid _ _ _ hb, scanAux_append]
    rw [scanAux_invalid zs _ _ hzs]
  have hx := scanAux_valid xs 2
    { existing_urls := [], last_data_row := 1, data_count := 0 } hxs
  have hy := scanAux_valid ys (2 + xs.length + 1)
    (scanAux xs 2 { existing_urls := [], last_data_row := 1, data_count := 0 }) hys
  have hcount : (scanSheet (hdr :: (xs ++ b :: (ys ++ zs)))).data_count =
      xs.length + ys.length := by
    rw [hscan, hy.1, hx.1]
    simp
  have hlast : (scanSheet (hdr :: (xs ++ b :: (ys ++ zs)))).last_data_row =
      2 + xs.length + ys.length := by
    rw [hscan, hy.2 hys0]
    omega
  have hstart : (appendSheet (hdr :: (xs ++ b :: (ys ++ zs))) clinics).start_row =
      2 + xs.length + ys.length + 1 := by
    show (scanSheet (hdr :: (xs ++ b :: (ys ++ zs)))).last_data_row + 1 = _
    rw [hlast]
  have hylen : 0 < ys.length := List.length_pos.mpr hys0
  refine ⟨hcount, hlast, hstart, ?_, ?_⟩
  · rw [hstart]; omega
  · intro hzs0
    have hzlen : 0 < zs.length := List.length_pos.mpr hzs0
    rw [hstart]
    simp only [List.length_cons, List.length_append]
    omega

/-- Witness for C6: header, one valid row, a blank row, one valid row,
one malformed trailing row. -/
theorem c6_witness :
    (scanSheet [["No."], ["1", "A", "https://a"], ["", "", ""], ["2", "B", "https://b"], ["x"]]).data_count = 2 ∧
    (appendSheet [["No."], ["1", "A", "https://a"], ["", "", ""], ["2", "B", "https://b"], ["x"]]
      []).start_row = 5 := by
  have h := c6_blank_row_not_insertion_point ["No."] ["", "", ""]
    [["1", "A", "https://a"]] [["2", "B", "https://b"]] [["x"]] []
    (by decide) (by decide) (by decide) (by decide) (by decide)
  exact ⟨h.1, h.2.2.1⟩

/-! ## Staging-loop lemmas for the sink -/

/-- When every incoming clinic has a usable, trimmed URL not yet in the
dedup set and the incoming URLs are pairwise distinct, the staging loop
stages all of them; the staged rows carry the incoming URLs (in order) in
their URL cell, and each staged row is recognized as a data row by a
later scan. -/
theorem stageAux_all (clinics : List ValidatedClinic) :
    ∀ (existing : List String) (no : Nat),
    (∀ c ∈ clinics, pyStrip c.name ≠ "" ∧ urlOf c ≠ "" ∧
      pyStrip (urlOf c) = urlOf c ∧ urlOf c ∉ existing) →
    (clinics.map urlOf).Nodup →
    (stageAux clinics existing no).length = clinics.length ∧
    (stageAux clinics existing no).map (fun r => cellTrim r 2) = clinics.map urlOf ∧
    (∀ r ∈ stageAux clinics existing no,
      (decide (cellTrim r 1 ≠ "") && decide (cellTrim r 2 ≠ "")) = true) := by
  induction clinics with
  | nil => intro existing no _ _; exact ⟨rfl, rfl, by intro r hr; simp [stageAux] at hr⟩
  | cons c rest ih =>
    intro existing no h hnodup
    rw [List.map_cons, List.nodup_cons] at hnodup
    have hc := h c (by simp)
    have hstage : stageAux (c :: rest) existing no =
        mkRow no c :: stageAux rest (existing ++ [urlOf c]) (no + 1) := by
      show (if urlOf c ≠ "" ∧ urlOf c ∈ existing then stageAux rest existing no
        else if urlOf c = "" then stageAux rest existing no
        else mkRow no c :: stageAux rest (existing ++ [urlOf c]) (no + 1)) = _
      rw [if_neg (fun hmem => hc.2.2.2 hmem.2), if_neg hc.2.1]
    have hrest := ih (existing ++ [urlOf c]) (no + 1)
      (by
        intro c2 hc2
        have h2 := h c2 (by simp [hc2])
        refine ⟨h2.1, h2.2.1, h2.2.2.1, ?_⟩
        intro hmem
        rcases List.mem_append.mp hmem with hm | hm
        · exact h2.2.2.2 hm
        · have hne : urlOf c2 ≠ urlOf c := by
            intro heq
            exact hnodup.1 (heq ▸ List.mem_map_of_mem urlOf hc2)
          simp at hm
          exact hne hm)
      hnodup.2
    have hcell1 : cellTrim (mkRow no c) 1 = pyStrip c.name := rfl
    have hcell2 : cellTrim (mkRow no c) 2 = urlOf c := by
      show pyStrip (c.url.getD "") = urlOf c
      exact hc.2.2.1
    refine ⟨?_, ?_, ?_⟩
    · rw [hstage]
      simp [hrest.1]
    · rw [hstage]
      simp only [List.map_cons, hcell2, hrest.2.1]
    · rw [hstage]
      intro r hr
      rcases List.mem_cons.mp hr with hr | hr
      · subst hr
        simp [hcell1, hcell2, hc.1, hc.2.1]
      · exact hrest.2.2 r hr

/-- When every incoming clinic either lacks a URL or carries one already
in the dedup set, the staging loop stages nothing. -/
theorem stageAux_none (clinics : List ValidatedClinic) :
    ∀ (existing : List String) (no : Nat),
    (∀ c ∈ clinics, urlOf c = "" ∨ urlOf c ∈ existing) →
    stageAux clinics existing no = [] := by
  induction clinics with
  | nil => intro existing no _; rfl
  | cons c rest ih =>
    intro existing no h
    have hc := h c (by simp)
    have hrest : ∀ c2 ∈ rest, urlOf c2 = "" ∨ urlOf c2 ∈ existing :=
      fun c2 hc2 => h c2 (by simp [hc2])
    show (if urlOf c ≠ "" ∧ urlOf c ∈ existing then stageAux rest existing no
      else if urlOf c = "" then stageAux rest existing no
      else mkRow no c :: stageAux rest (existing ++ [urlOf c]) (no + 1)) = []
    rcases hc with hc | hc
    · rw [if_neg (fun hand => hand.1 hc), if_pos hc]
      exact ih existing no hrest
    · by_cases hne : urlOf c = ""
      · rw [if_neg (fun hand => hand.1 hne), if_pos hne]
        exact ih existing no hrest
      · rw [if_pos ⟨hne, hc⟩]
        exact ih existing no hrest

/-! ## Claim C5 -/

/-- A record with no URL is skipped by the staging loop, so appending a
one-record no-URL list to an empty sink writes 0 rows, not the input
count 1 — refuting the claim for arbitrary validated listings. -/
theorem c5_counterexample_no_url :
    (appendSheet [["No."]] [{ name := "A" }]).written = 0 ∧
    ([{ name := "A" }] : List ValidatedClinic).length = 1 := by
  decide

/-- C5 (amended): for every list of validated listings whose names are
non-blank and whose URLs are present, non-blank, whitespace-trimmed and
pairwise distinct, appending it to an initially empty sink (header row
only) writes exactly the input count of rows, and appending the same list
again to the resulting sink writes 0 rows (every URL is then in the dedup
set).  (Without those conditions the first count falls short: records
lacking a URL, or repeating an earlier URL, are skipped — see the
counterexample.) -/
theorem c5_append_twice_idempotent (hdr : Row) (clinics : List ValidatedClinic)
    (hgood : ∀ c ∈ clinics, pyStrip c.name ≠ "" ∧ urlOf c ≠ "" ∧
      pyStrip (urlOf c) = urlOf c)
    (hnodup : (clinics.map urlOf).Nodup) :
    (appendSheet [hdr] clinics).written = clinics.length ∧
    (appendSheet (appendSheet [hdr] clinics).sheet clinics).written = 0 := by
  have hstage := stageAux_all clinics [] 1
    (fun c hc => ⟨(hgood c hc).1, (hgood c hc).2.1, (hgood c hc).2.2, by simp⟩) hnodup
  have hsheet : (appendSheet [hdr] clinics).sheet = hdr :: stageAux clinics [] 1 := by
    show (if (stageAux clinics [] 1).isEmpty then [hdr]
      else listUpdate [hdr] 2 (stageAux clinics [] 1)) = hdr :: stageAux clinics [] 1
    by_cases h : (stageAux clinics [] 1).isEmpty
    · rw [if_pos h, List.isEmpty_iff.mp h]
    · rw [if_neg h]
      show [hdr].take 1 ++ stageAux clinics [] 1 ++
        [hdr].drop (1 + (stageAux clinics [] 1).length) = _
      rw [Nat.add_comm 1 (stageAux clinics [] 1).length, List.drop_succ_cons,
        List.drop_nil]
      simp
  constructor
  · exact hstage.1
  · have hurls : (scanSheet (hdr :: stageAux clinics [] 1)).existing_urls =
        clinics.map urlOf := by
      show (scanAux (stageAux clinics [] 1) 2
        { existing_urls := [], last_data_row := 1, data_count := 0 }).existing_urls = _
      rw [scanAux_urls]
      rw [List.filter_eq_self.mpr (fun r hr => hstage.2.2 r hr)]
      rw [hstage.2.1]
      simp
    have hnone : stageAux clinics
        ((scanSheet ((appendSheet [hdr] clinics).sheet)).existing_urls)
        ((scanSheet ((appendSheet [hdr] clinics).sheet)).data_count + 1) = [] := by
      apply stageAux_none
      intro c hc
      right
      rw [hsheet, hurls]
      exact List.mem_map_of_mem urlOf hc
    show (stageAux clinics
      ((scanSheet ((appendSheet [hdr] clinics).sheet)).existing_urls)
      ((scanSheet ((appendSheet [hdr] clinics).sheet)).data_count + 1)).length = 0
    rw [hnone]
    rfl

/-- Witness for C5: a single record with name `"A"` and URL
`"https://a"`, against the header-only sink `[["No."]]`. -/
theorem c5_witness :
    (appendSheet [["No."]] [{ name := "A", url := some "https://a" }]).written = 1 ∧
    (appendSheet (appendSheet [["No."]] [{ name := "A", url := some "https://a" }]).sheet
      [{ name := "A", url := some "https://a" }]).written = 0 :=
  c5_append_twice_idempotent ["No."] [{ name := "A", url := some "https://a" }]
    (by decide) (by decide)

/-! ## Claim C8 -/

/-- A non-empty string has a non-empty character list. -/
theorem data_isEmpty_eq_false {s : String} (h : s ≠ "") : s.data.isEmpty = false := by
  cases s with
  | mk data =>
    cases data with
    | nil => exact absurd rfl h
    | cons a l => rfl

/-- Taking all of a string's characters yields the string itself. -/
theorem strTake_strLen (s : String) : strTake s (strLen s) = s := by
  show (⟨s.data.take s.data.length⟩ : String) = s
  rw [List.take_length]

/-- If two strings agree on their first `min`-length prefix, the shorter
is a contiguous substring of the longer (it is a prefix of it). -/
theorem strTake_min_eq_contains (a b : String)
    (h : strTake a (min (strLen a) (strLen b)) = strTake b (min (strLen a) (strLen b))) :
    strContains b a = true ∨ strContains a b = true := by
  rcases Nat.le_total (strLen a) (strLen b) with hle | hle
  · left
    rw [Nat.min_eq_left hle, strTake_strLen] at h
    have hdata : a.data = b.data.take (strLen a) := congrArg String.data h
    simp only [strContains, decide_eq_true_eq]
    exact (hdata ▸ List.take_prefix (strLen a) b.data).isInfix
  · right
    rw [Nat.min_eq_right hle, strTake_strLen] at h
    have hdata : b.data = a.data.take (strLen b) := congrArg String.data h.symm
    simp only [strContains, decide_eq_true_eq]
    exact (hdata ▸ List.take_prefix (strLen b) a.data).isInfix

/-- C8 (amended): for non-empty inputs, `_names_match` returns true
exactly when the strings are equal, or equal after removing half- and
full-width spaces and case-folding, or one normalized string contains the
other.  The shared-prefix rule compares prefixes of length
`min(len, len)` — the whole shorter string — so it fires only when the
shorter normalized string is a prefix of the longer, a case containment
already covers; two strings sharing only a 5-character prefix do not
match (see the counterexample). -/
theorem c8_names_match_iff (h1_name aria_label_name : String)
    (hh : h1_name ≠ "") (ha : aria_label_name ≠ "") :
    names_match h1_name aria_label_name = true ↔
      (h1_name = aria_label_name ∨
        normalizeName h1_name = normalizeName aria_label_name ∨
        strContains (normalizeName aria_label_name) (normalizeName h1_name) = true ∨
        strContains (normalizeName h1_name) (normalizeName aria_label_name) = true) := by
  unfold names_match
  rw [if_neg (by simp [data_isEmpty_eq_false hh, data_isEmpty_eq_false ha])]
  by_cases heq : h1_name = aria_label_name
  · rw [if_pos heq]
    simp [heq]
  · rw [if_neg heq]
    by_cases hnorm : normalizeName h1_name = normalizeName aria_label_name
    · rw [if_pos hnorm]
      simp [hnorm]
    · rw [if_neg hnorm]
      by_cases hcont : strContains (normalizeName aria_label_name) (normalizeName h1_name) ∨
          strContains (normalizeName h1_name) (normalizeName aria_label_name)
      · rw [if_pos hcont]
        rcases hcont with hc | hc
        · simp [hc]
        · simp [hc]
      · rw [if_neg hcont]
        constructor
        · intro htrue
          by_cases hpre : 5 ≤ min (strLen (normalizeName h1_name)) (strLen (normalizeName aria_label_name)) ∧
              strTake (normalizeName h1_name)
                  (min (strLen (normalizeName h1_name)) (strLen (normalizeName aria_label_name))) =
                strTake (normalizeName aria_label_name)
                  (min (strLen (normalizeName h1_name)) (strLen (normalizeName aria_label_name)))
          · rcases strTake_min_eq_contains (normalizeName h1_name) (normalizeName aria_label_name)
                hpre.2 with hc | hc
            · exact Or.inr (Or.inr (Or.inl hc))
            · exact Or.inr (Or.inr (Or.inr hc))
          · rw [if_neg hpre] at htrue
            exact absurd htrue (by simp)
        · intro hrhs
          rcases hrhs with h | h | h | h
          · exact absurd h heq
          · exact absurd h hnorm
          · exact absurd (Or.inl h) hcont
          · exact absurd (Or.inr h) hcont

/-- Witness for C8: equal non-empty strings match. -/
theorem c8_witness : names_match "abc" "abc" = true :=
  (c8_names_match_iff "abc" "abc" (by decide) (by decide)).mpr (Or.inl rfl)

/-- Two strings sharing exactly a 5-character prefix satisfy the spec's
wording of the fuzzy equality but `_names_match` rejects them: the code
compares prefixes of the full shorter length, not length 5. -/
theorem c8_counterexample_shared_prefix :
    specNamesMatch "abcdeX" "abcdeY" = true ∧ names_match "abcdeX" "abcdeY" = false := by
  decide

/-! ## Claim C1 -/

/-- A run whose single region discovers one clinic, validates it as valid,
and then fails the sink append: the orchestrator emits the warning event
and still completes, but the `complete` event reports
`valid_count = 0` and `new_count = 0` even though the region produced
exactly 1 validated-valid record — contradicting the claim that the
unsaved records are counted in the run's final valid total. -/
theorem c1_counterexample_sink_error_drops_valid_total :
    ((runScrape [] (fun cl => cl.map (fun c => failOpen c "ok"))
      [{ searchResult := .ok [{ name := "A", url := some "https://a" }],
         sinkAppend := fun _ => .error "boom" }]).2 =
      [Event.log "[WARN] Sheets書き込みエラー: boom", Event.complete [] 1 0 0 0]) ∧
    (((fun (cl : List Clinic) => cl.map (fun c => failOpen c "ok"))
        (ExclusionFilter.filter [] [{ name := "A", url := some "https://a" }])).filter
      (fun c => c.is_valid)).length = 1 := by
  decide

/-- C1 (amended): when the sink's append errors for a region, the
orchestrator emits a warning event and continues, and the region's
validated-but-unsaved records are counted in neither the run's final
"valid" total (`valid_count`, the length of `all_valid_clinics`, which is
only extended after a successful append) nor the "new" total; the run
still always ends with exactly one `complete` event reporting the
accumulated state. -/
theorem c1_sink_error_warns_and_counts_nothing :
    (∀ (kw : List String) (validate : List Clinic → List ValidatedClinic)
        (st : RunState) (clinics : List Clinic)
        (sink : List ValidatedClinic → Except String Nat) (e : String),
      clinics ≠ [] →
      ExclusionFilter.filter kw clinics ≠ [] →
      (validate (ExclusionFilter.filter kw clinics)).filter (fun c => c.is_valid) ≠ [] →
      sink ((validate (ExclusionFilter.filter kw clinics)).filter (fun c => c.is_valid)) =
        .error e →
      (processRegion kw validate { searchResult := .ok clinics, sinkAppend := sink } st).1.all_valid =
        st.all_valid ∧
      (processRegion kw validate { searchResult := .ok clinics, sinkAppend := sink } st).1.total_new =
        st.total_new ∧
      Event.log ("[WARN] Sheets書き込みエラー: " ++ e) ∈
        (processRegion kw validate { searchResult := .ok clinics, sinkAppend := sink } st).2) ∧
    (∀ (kw : List String) (validate : List Clinic → List ValidatedClinic)
        (worlds : List RegionWorld) (st : RunState), ∃ evs0,
      (runRegions kw validate worlds st).2 = evs0 ++
        [Event.complete (runRegions kw validate worlds st).1.all_valid
          (runRegions kw validate worlds st).1.total_found
          (runRegions kw validate worlds st).1.all_valid.length
          (runRegions kw validate worlds st).1.total_excluded
          (runRegions kw validate worlds st).1.total_new]) := by
  constructor
  · intro kw validate st clinics sink e hcl hfil hval herr
    simp only [processRegion]
    rw [if_neg (by simp [hcl]), if_neg (by simp [hfil]), if_neg (by simp [hval]), herr]
    exact ⟨rfl, rfl, by simp⟩
  · intro kw validate worlds
    induction worlds with
    | nil => intro st; exact ⟨[], rfl⟩
    | cons w rest ih =>
      intro st
      obtain ⟨evs0, hevs⟩ := ih (processRegion kw validate w st).1
      refine ⟨(processRegion kw validate w st).2 ++ evs0, ?_⟩
      show (processRegion kw validate w st).2 ++
        (runRegions kw validate rest (processRegion kw validate w st).1).2 = _
      rw [hevs, ← List.append_assoc]
      rfl

/-- Witness for C1: the concrete failing-sink region of the
counterexample, processed from the zero state. -/
theorem c1_witness :
    (processRegion [] (fun cl => cl.map (fun c => failOpen c "ok"))
      { searchResult := .ok [{ name := "A", url := some "https://a" }],
        sinkAppend := fun _ => .error "boom" }
      { all_valid := [], total_found := 0, total_excluded := 0, total_new := 0 }).1.total_new = 0 ∧
    Event.log ("[WARN] Sheets書き込みエラー: " ++ "boom") ∈
      (processRegion [] (fun cl => cl.map (fun c => failOpen c "ok"))
        { searchResult := .ok [{ name := "A", url := some "https://a" }],
          sinkAppend := fun _ => .error "boom" }
        { all_valid := [], total_found := 0, total_excluded := 0, total_new := 0 }).2 := by
  have h := c1_sink_error_warns_and_counts_nothing.1 []
    (fun cl => cl.map (fun c => failOpen c "ok"))
    { all_valid := [], total_found := 0, total_excluded := 0, total_new := 0 }
    [{ name := "A", url := some "https://a" }]
    (fun _ => .error "boom") "boom"
    (by decide) (by decide) (by decide) rfl
  exact ⟨h.2.1, h.2.2⟩

end ClinicScraper
